import Mathlib

/-!
Formal model of the browser-mcp-bridge server.

The definitions below are a shallow embedding of the Go sources:
  internal/server/websocket.go  (connection registry, RPC correlator, dispatcher)
  internal/server/sse.go        (SSE streaming sessions)
  internal/server/mcp.go        (HTTP MCP root endpoint, callTool)
  internal/mcp (Message, Error, Tool, GetTools)
Comments on each definition cite the Go function and lines it embeds.
-/

namespace Bridge

/-- JSON values, the shallow embedding of Go `any` / `json.RawMessage` payloads.
Go json.Marshal emits map keys in sorted order; we keep the literal insertion
order of the source, which no theorem below depends on. -/
inductive JVal where
  | null
  | bool (b : Bool)
  | num (n : Int)
  | str (s : String)
  | arr (xs : List JVal)
  | obj (fields : List (String × JVal))

/-- Field lookup in a JSON object; `none` on non-objects or absent keys. -/
def lookupField (v : JVal) (key : String) : Option JVal :=
  match v with
  | .obj fields => go fields
  | _ => none
where go : List (String × JVal) → Option JVal
  | [] => none
  | (k, x) :: rest => if k = key then some x else go rest

/-- Embeds mcp.Error (internal/mcp: Code, Message, Data). -/
structure MCPError where
  code : Int
  message : String
  data : Option JVal := none

/-- Embeds mcp.Message (internal/mcp): ID int, Method string (Go zero value ""),
Params/Result json.RawMessage (nil modelled as `none`), Error *Error. -/
structure Message where
  id : Int
  method : String := ""
  params : Option JVal := none
  result : Option JVal := none
  error : Option MCPError := none

/-- Embeds mcp.SuccessResponse: the result value is always marshalled into the
Result field (a nil Go result marshals to JSON null, still a present field). -/
def SuccessResponse (id : Int) (result : JVal) : Message :=
  { id := id, result := some result }

/-- Embeds mcp.ErrorResponse. -/
def ErrorResponse (id : Int) (code : Int) (message : String) : Message :=
  { id := id, error := some { code := code, message := message } }

/-- Marshalling of mcp.Error, following its json struct tags (data omitempty). -/
def MCPError.toJVal (e : MCPError) : JVal :=
  .obj ([("code", .num e.code), ("message", .str e.message)] ++
    (match e.data with | none => [] | some d => [("data", d)]))

/-- Marshalling of mcp.Message, following its json struct tags: id always
present, method/params/result/error omitempty. -/
def Message.toJVal (m : Message) : JVal :=
  .obj ([("id", .num m.id)] ++
    (if m.method = "" then [] else [("method", .str m.method)]) ++
    (match m.params with | none => [] | some p => [("params", p)]) ++
    (match m.result with | none => [] | some r => [("result", r)]) ++
    (match m.error with | none => [] | some e => [("error", e.toJVal)]))

/-! Connection registry (websocket.go).

A live `*websocket.Conn` is modelled by an abstract numeric transport handle;
the registry field `s.conn` is an `Option Conn`, `none` being Go nil. -/

/-- Abstract transport handle standing for a `*websocket.Conn`. -/
abbrev Conn := Nat

/-- Embeds Server.IsConnected (websocket.go lines 118-122): s.conn != nil. -/
def IsConnected (conn : Option Conn) : Bool :=
  conn.isSome

/-- Connection lifecycle events of handleWebSocket (websocket.go lines 232-283):
`connect t` is the registration `s.conn = conn` after a successful upgrade
(lines 239-241); `readLoopExit t` is the deferred cleanup run when the read
loop serving transport `t` returns (lines 245-251), which sets `s.conn = nil`
unconditionally, without checking that `t` is still the registered transport. -/
inductive ConnEvent where
  | connect (t : Conn)
  | readLoopExit (t : Conn)

/-- One registry transition per connection event. -/
def connStep (_old : Option Conn) : ConnEvent → Option Conn
  | .connect t => some t
  | .readLoopExit _ => none

/-- Registry contents after a sequence of connection events, starting from the
initial nil registry. -/
def connRun (events : List ConnEvent) : Option Conn :=
  events.foldl connStep none

/-- Embeds Server.sendMessage (websocket.go lines 380-395): reads the current
transport under RLock; returns the error "not connected" when nil, otherwise
serializes the message and writes it on that transport. The successful case is
modelled as the pair of the transport written to and the message. -/
def sendMessage (conn : Option Conn) (msg : Message) : Except String (Conn × Message) :=
  match conn with
  | none => .error "not connected"
  | some c => .ok (c, msg)

/-- Embeds Server.handleHealth (websocket.go lines 124-131): the JSON body is
the object with fields status:"ok" and extension_connected:IsConnected(). -/
def handleHealth (conn : Option Conn) : JVal :=
  .obj [("status", .str "ok"), ("extension_connected", .bool (IsConnected conn))]

/-! RPC correlator (websocket.go).

The Go field `pendingReqs map[int]chan *mcp.Message` is embedded as an
association list from request ID to an abstract one-shot channel handle; the
invariant proofs below show its keys stay distinct, so the list is a faithful
model of the map. -/

/-- Abstract handle standing for a buffered `chan *mcp.Message` of size 1. -/
abbrev Chan := Nat

/-- The pending-request table, keyed by request ID. -/
abbrev PendingMap := List (Int × Chan)

/-- Map lookup on the pending table. -/
def lookupPending : PendingMap → Int → Option Chan
  | [], _ => none
  | (k, v) :: rest, id => if k = id then some v else lookupPending rest id

/-- Map deletion on the pending table, embedding `delete(s.pendingReqs, id)`. -/
def deletePending (m : PendingMap) (id : Int) : PendingMap :=
  m.filter (fun p => p.1 != id)

/-- The mutable server state the claims are about: the registry transport
`s.conn`, the pending table `s.pendingReqs`, and the counter `s.reqID`. -/
structure ServerState where
  conn : Option Conn
  pendingReqs : PendingMap
  reqID : Int

/-- Embeds server.New (websocket.go lines 57-63): empty pending map; conn and
reqID hold their Go zero values (nil and 0). -/
def initialState : ServerState :=
  { conn := none, pendingReqs := [], reqID := 0 }

/-- Fixed timeout of SendRequest, in seconds (websocket.go line 436,
`time.After(30 * time.Second)`). -/
def requestTimeoutSeconds : Nat := 30

/-- Outcome of the registration phase of SendRequest. -/
inductive SendRequestStart where
  | failed (err : String)
  | registered (id : Int) (ch : Chan) (msg : Message)

/-- Embeds the entry of Server.SendRequest (websocket.go lines 399-427): read
the transport under RLock and fail with "not connected" when nil (lines
400-406); otherwise, under requestMu, advance reqID by 1000 ("use large
increments to avoid collision with extension IDs"), allocate a fresh one-shot
channel and register it in pendingReqs (lines 408-413), then build the request
envelope carrying the new ID (lines 421-427). `ch` stands for the channel
allocated by `make(chan *mcp.Message, 1)`. -/
def sendRequestStart (st : ServerState) (method : String) (params : Option JVal)
    (ch : Chan) : ServerState × SendRequestStart :=
  match st.conn with
  | none => (st, .failed "not connected")
  | some _ =>
      let id := st.reqID + 1000
      ({ st with reqID := id, pendingReqs := (id, ch) :: st.pendingReqs },
        .registered id ch { id := id, method := method, params := params })

/-- Embeds the timeout arm of Server.SendRequest (websocket.go lines 433-438)
together with the deferred cleanup (lines 415-419): when no reply arrives
within the window, the deferred `delete(s.pendingReqs, id)` runs and the call
returns the error "request timeout". -/
def sendRequestTimeout (st : ServerState) (id : Int) : ServerState × String :=
  ({ st with pendingReqs := deletePending st.pendingReqs id }, "request timeout")

/-- What the read loop does with one decoded inbound envelope. -/
inductive InboundAction where
  | resolved (ch : Chan) (msg : Message)
  | dispatched (msg : Message)

/-- Embeds the body of the read loop of handleWebSocket (websocket.go lines
269-282): an envelope with a nonzero ID carrying a result or an error is
looked up in pendingReqs under requestMu; on a hit it is delivered on the
pending channel (`ch <- &msg`) and the loop continues; otherwise (including
every envelope with ID 0 and every request-shaped envelope) it is handed to
`go s.handleRequest(&msg)` as a fresh inbound request. The read loop itself
never mutates the pending table. -/
def handleInboundMessage (st : ServerState) (msg : Message) : InboundAction :=
  if msg.id ≠ 0 ∧ (msg.result.isSome ∨ msg.error.isSome) then
    match lookupPending st.pendingReqs msg.id with
    | some ch => .resolved ch msg
    | none => .dispatched msg
  else .dispatched msg

/-- Composition of one resolution with the woken caller finishing: the read
loop delivers the envelope on the matching channel (websocket.go line 275),
the blocked SendRequest receives it (line 434) and its deferred cleanup
removes the entry (lines 415-419). Envelopes that resolve nothing leave the
table untouched and are dispatched. -/
def resolveCycle (st : ServerState) (msg : Message) : ServerState × Option (Chan × Message) :=
  match handleInboundMessage st msg with
  | .resolved ch m =>
      ({ st with pendingReqs := deletePending st.pendingReqs msg.id }, some (ch, m))
  | .dispatched _ => (st, none)

/-- Events that mutate the server state, for whole-execution invariants:
`connect` and `readLoopExit` are the handleWebSocket transitions of ConnEvent;
`sendRequest` is the registration phase of a bridge-initiated call;
`completeRequest` is the deferred `delete(s.pendingReqs, id)` run when a call
finishes (reply received or timeout); `inbound` is one read-loop iteration,
which mutates nothing. -/
inductive ServerEvent where
  | connect (t : Conn)
  | readLoopExit (t : Conn)
  | sendRequest (method : String) (params : Option JVal) (ch : Chan)
  | completeRequest (id : Int)
  | inbound (msg : Message)

/-- One server-state transition per event. -/
def serverStep (st : ServerState) : ServerEvent → ServerState
  | .connect t => { st with conn := some t }
  | .readLoopExit _ => { st with conn := none }
  | .sendRequest method params ch => (sendRequestStart st method params ch).1
  | .completeRequest id => { st with pendingReqs := deletePending st.pendingReqs id }
  | .inbound _ => st

/-- Server state reached by a sequence of events from the freshly created
server. -/
def serverRun (events : List ServerEvent) : ServerState :=
  events.foldl serverStep initialState

/-- Invariant of the correlator state: the counter is nonnegative, pending IDs
are pairwise distinct, and every pending ID is positive and at most the
counter. -/
def PendingInv (st : ServerState) : Prop :=
  0 ≤ st.reqID ∧
  (st.pendingReqs.map Prod.fst).Nodup ∧
  ∀ p ∈ st.pendingReqs, 0 < p.1 ∧ p.1 ≤ st.reqID

/-! Tool descriptors (internal/mcp, GetTools). -/

/-- Embeds mcp.Property. -/
structure Property where
  type : String
  description : String
  deriving DecidableEq

/-- Embeds mcp.Parameters; the Go `map[string]Property` literal is kept as an
association list in the literal order of the source. -/
structure Parameters where
  type : String
  properties : List (String × Property)
  required : List String
  deriving DecidableEq

/-- Embeds mcp.Tool. -/
structure Tool where
  name : String
  description : String
  inputSchema : Parameters
  deriving DecidableEq

/-- Marshalling of mcp.Property per its json tags. -/
def Property.toJVal (p : Property) : JVal :=
  .obj [("type", .str p.type), ("description", .str p.description)]

/-- Marshalling of mcp.Parameters per its json tags. -/
def Parameters.toJVal (ps : Parameters) : JVal :=
  .obj [("type", .str ps.type),
    ("properties", .obj (ps.properties.map (fun q => (q.1, q.2.toJVal)))),
    ("required", .arr (ps.required.map JVal.str))]

/-- Marshalling of mcp.Tool per its json tags. -/
def Tool.toJVal (t : Tool) : JVal :=
  .obj [("name", .str t.name), ("description", .str t.description),
    ("inputSchema", t.inputSchema.toJVal)]

/-- Embeds mcp.GetTools (internal/mcp lines 170-296): the static list of the
eleven tool descriptors, in source order. -/
def GetTools : List Tool :=
  [ { name := "browser_tabs_list",
      description := "List all open browser tabs",
      inputSchema := { type := "object", properties := [], required := [] } },
    { name := "browser_tab_activate",
      description := "Activate/focus a specific tab",
      inputSchema :=
        { type := "object",
          properties := [("tabId", { type := "integer", description := "ID of the tab to activate" })],
          required := ["tabId"] } },
    { name := "browser_tab_navigate",
      description := "Navigate a tab to a URL",
      inputSchema :=
        { type := "object",
          properties := [("tabId", { type := "integer", description := "ID of the tab" }),
          ("url", { type := "string", description := "URL to navigate to" })],
          required := ["tabId", "url"] } },
    { name := "browser_tab_close",
      description := "Close a tab",
      inputSchema :=
        { type := "object",
          properties := [("tabId", { type := "integer", description := "ID of the tab to close" })],
          required := ["tabId"] } },
    { name := "browser_tab_screenshot",
      description := "Take a screenshot of a tab",
      inputSchema :=
        { type := "object",
          properties := [("tabId", { type := "integer", description := "ID of the tab" })],
          required := ["tabId"] } },
    { name := "browser_page_content",
      description := "Get page content (text, HTML, links)",
      inputSchema :=
        { type := "object",
          properties := [("tabId", { type := "integer", description := "ID of the tab" })],
          required := ["tabId"] } },
    { name := "browser_page_click",
      description := "Click an element by CSS selector",
      inputSchema :=
        { type := "object",
          properties := [("tabId", { type := "integer", description := "ID of the tab" }),
          ("selector", { type := "string", description := "CSS selector" })],
          required := ["tabId", "selector"] } },
    { name := "browser_page_fill",
      description := "Fill an input field",
      inputSchema :=
        { type := "object",
          properties := [("tabId", { type := "integer", description := "ID of the tab" }),
          ("selector", { type := "string", description := "CSS selector" }),
          ("value", { type := "string", description := "Value to fill" })],
          required := ["tabId", "selector", "value"] } },
    { name := "browser_page_scroll",
      description := "Scroll the page",
      inputSchema :=
        { type := "object",
          properties := [("tabId", { type := "integer", description := "ID of the tab" }),
          ("x", { type := "integer", description := "X scroll position" }),
          ("y", { type := "integer", description := "Y scroll position" })],
          required := ["tabId"] } },
    { name := "browser_page_execute",
      description := "Execute JavaScript in the page",
      inputSchema :=
        { type := "object",
          properties := [("tabId", { type := "integer", description := "ID of the tab" }),
          ("script", { type := "string", description := "JavaScript code" })],
          required := ["tabId", "script"] } },
    { name := "browser_page_find",
      description := "Find elements by CSS selector",
      inputSchema :=
        { type := "object",
          properties := [("tabId", { type := "integer", description := "ID of the tab" }),
          ("selector", { type := "string", description := "CSS selector" })],
          required := ["tabId", "selector"] } } ]

/-! Method dispatcher (websocket.go, handleRequest). -/

/-- Abstract view of the Handler interface (websocket.go lines 28-41) as seen
from handleRequest: for each capability method, one function combining the
json.Unmarshal of its parameters with the handler call, returning either the
marshalled result value or the error string that handleRequest would see
(a decode failure or a handler failure). The bridge-internal branches
(mcp/tools, ping, extension/error) are concrete in dispatchMethod itself. -/
structure HandlerEnv where
  listTabs : Except String JVal
  activateTab : Option JVal → Except String JVal
  navigateTab : Option JVal → Except String JVal
  closeTab : Option JVal → Except String JVal
  screenshotTab : Option JVal → Except String JVal
  getPageContent : Option JVal → Except String JVal
  executeScript : Option JVal → Except String JVal
  clickElement : Option JVal → Except String JVal
  fillInput : Option JVal → Except String JVal
  scrollPage : Option JVal → Except String JVal
  findElements : Option JVal → Except String JVal
  decodeExtensionError : Option JVal → Except String Unit

/-- The method names of the dispatch table of handleRequest (websocket.go
lines 292-364), in source order. -/
def knownMethods : List String :=
  ["tabs/list", "tabs/activate", "tabs/navigate", "tabs/close", "tabs/screenshot",
   "page/getContent", "page/executeScript", "page/click", "page/fill", "page/scroll",
   "page/find", "mcp/tools", "ping", "extension/error"]

/-- Embeds the switch of Server.handleRequest (websocket.go lines 292-367):
capability methods go through the handler; mcp/tools returns mcp.GetTools()
directly; ping returns the pong object; extension/error logs and returns the
logged object when its params decode; every other method name falls to the
default arm `err = fmt.Errorf("unknown method: %s", msg.Method)`. -/
def dispatchMethod (env : HandlerEnv) (msg : Message) : Except String JVal :=
  if msg.method = "tabs/list" then env.listTabs
  else if msg.method = "tabs/activate" then env.activateTab msg.params
  else if msg.method = "tabs/navigate" then env.navigateTab msg.params
  else if msg.method = "tabs/close" then env.closeTab msg.params
  else if msg.method = "tabs/screenshot" then env.screenshotTab msg.params
  else if msg.method = "page/getContent" then env.getPageContent msg.params
  else if msg.method = "page/executeScript" then env.executeScript msg.params
  else if msg.method = "page/click" then env.clickElement msg.params
  else if msg.method = "page/fill" then env.fillInput msg.params
  else if msg.method = "page/scroll" then env.scrollPage msg.params
  else if msg.method = "page/find" then env.findElements msg.params
  else if msg.method = "mcp/tools" then .ok (.arr (GetTools.map Tool.toJVal))
  else if msg.method = "ping" then .ok (.obj [("pong", .bool true)])
  else if msg.method = "extension/error" then
    match env.decodeExtensionError msg.params with
    | .ok _ => .ok (.obj [("logged", .bool true)])
    | .error e => .error e
  else .error ("unknown method: " ++ msg.method)

/-- Fixed error code used by handleRequest for every dispatcher failure
(websocket.go line 372) and by handleMCPRoot (line 206): decode errors,
handler errors and unknown methods all carry this one code. -/
def internalErrorCode : Int := -32603

/-- Embeds the tail of Server.handleRequest (websocket.go lines 369-377): an
error becomes ErrorResponse(msg.ID, -32603, err.Error()), a success becomes
SuccessResponse(msg.ID, result). -/
def handleRequest (env : HandlerEnv) (msg : Message) : Message :=
  match dispatchMethod env msg with
  | .ok result => SuccessResponse msg.id result
  | .error e => ErrorResponse msg.id internalErrorCode e

/-! HTTP MCP root endpoint (websocket.go, handleMCPRoot). -/

/-- Abstract view of the tools/call arm of handleMCPRoot (websocket.go lines
186-193): the json.Unmarshal of the params into name and arguments composed
with Server.callTool (mcp.go lines 246-384), which reaches the peer through
the handler. -/
structure RootEnv where
  toolsCall : Option JVal → Except String JVal

/-- Result of the initialize arm of handleMCPRoot (websocket.go lines 175-183). -/
def initializeResult : JVal :=
  .obj [("protocolVersion", .str "2024-11-05"),
    ("capabilities", .obj []),
    ("serverInfo", .obj [("name", .str "browser-mcp"), ("version", .str "1.0.0")])]

/-- Embeds the method switch of Server.handleMCPRoot (websocket.go lines
174-196): initialize and tools/list are answered from in-process data with no
peer round-trip; tools/call goes through RootEnv; any other method yields
`err = fmt.Errorf("unknown method: %s", req.Method)`. -/
def handleMCPRootMethod (env : RootEnv) (method : String) (params : Option JVal) :
    Except String JVal :=
  if method = "initialize" then .ok initializeResult
  else if method = "tools/list" then .ok (.obj [("tools", .arr (GetTools.map Tool.toJVal))])
  else if method = "tools/call" then env.toolsCall params
  else .error ("unknown method: " ++ method)

/-! SSE streaming sessions (sse.go).

Each SSESession owns `Events chan string`, a buffered channel of capacity 100
holding marshalled response envelopes; it is embedded as a FIFO list of the
marshalled values, and the global sseSessions map as an association list from
session ID to that queue. -/

/-- Queue capacity of an SSE session (sse.go line 47,
`make(chan string, 100)`). -/
def sseQueueCapacity : Nat := 100

/-- Grace period, in seconds, a push into a full queue waits before the event
is dropped with a logged warning (sse.go line 149,
`time.After(5 * time.Second)`). -/
def sseGraceSeconds : Nat := 5

/-- Outcome of pushing one marshalled envelope into a session queue. -/
inductive PushOutcome where
  | delivered
  | dropped

/-- Embeds the select of handleSSEMessageInternal (sse.go lines 147-151) on
the buffered Events channel with no reader draining it during the grace
window: the send succeeds immediately while the buffer has room, otherwise the
grace timer fires and the event is dropped with a logged warning. -/
def pushEvent (q : List JVal) (e : JVal) : List JVal × PushOutcome :=
  if q.length < sseQueueCapacity then (q ++ [e], .delivered) else (q, .dropped)

/-- Outcome of handleSSEMessageInternal for one submitted envelope. -/
inductive SSEInternalOutcome where
  | ignoredResponse
  | enqueued (response : Message)
  | droppedFull (response : Message)

/-- Embeds Server.handleSSEMessageInternal (sse.go lines 129-152): a message
with an empty Method is a response to a request the bridge sent and is
silently ignored; otherwise executeMethod runs and its outcome becomes an
error envelope with code -32603 or a success envelope, which is marshalled
and pushed into the queue of the session the message was submitted to. The
argument `exec` stands for the closure `s.executeMethod` (sse.go lines
154-178), which reaches the peer over SendRequest. -/
def handleSSEMessageInternal (exec : String → Option JVal → Except String JVal)
    (q : List JVal) (msg : Message) : List JVal × SSEInternalOutcome :=
  if msg.method = "" then (q, .ignoredResponse)
  else
    let response :=
      match exec msg.method msg.params with
      | .error e => ErrorResponse msg.id internalErrorCode e
      | .ok r => SuccessResponse msg.id r
    match pushEvent q response.toJVal with
    | (q2, .delivered) => (q2, .enqueued response)
    | (_, .dropped) => (q, .droppedFull response)

/-- The sseSessions map (sse.go lines 22-26), keyed by session ID; the value
is the session queue. -/
abbrev SSESessions := List (String × List JVal)

/-- Map lookup on the session table (sse.go lines 106-108). -/
def lookupSession : SSESessions → String → Option (List JVal)
  | [], _ => none
  | (k, v) :: rest, sid => if k = sid then some v else lookupSession rest sid

/-- Replaces the queue of the session with the given ID, leaving every other
session untouched; embeds the in-place mutation of one session object. -/
def updateSession (sessions : SSESessions) (sid : String) (q : List JVal) : SSESessions :=
  sessions.map (fun p => if p.1 = sid then (p.1, q) else p)

/-- One submission routed to a session: look the session up and run
handleSSEMessageInternal against its queue (the goroutine spawned at sse.go
line 123). A missing session changes nothing. -/
def submitToSession (exec : String → Option JVal → Except String JVal)
    (sessions : SSESessions) (sid : String) (msg : Message) :
    SSESessions × Option SSEInternalOutcome :=
  match lookupSession sessions sid with
  | none => (sessions, none)
  | some q =>
      let r := handleSSEMessageInternal exec q msg
      (updateSession sessions sid r.1, some r.2)

/-- HTTP status answered by the submission endpoint. -/
inductive SubmitAck where
  | missingSessionID
  | invalidSession
  | invalidJSON
  | accepted

/-- Embeds Server.handleSSEMessage (sse.go lines 94-127): reject an empty
session_id query value, then an unknown session, then an undecodable body
(`none` stands for a body json.NewDecoder fails on); any surviving message is
handed to the asynchronous handleSSEMessageInternal and the handler replies
with the accepted status at once, whatever the message contains. -/
def handleSSEMessage (sessions : SSESessions) (sessionID : String)
    (body : Option Message) : SubmitAck :=
  if sessionID = "" then .missingSessionID
  else
    match lookupSession sessions sessionID with
    | none => .invalidSession
    | some _ =>
        match body with
        | none => .invalidJSON
        | some _ => .accepted

/-- Session-manager events: handleSSE opening a session with a fresh empty
queue (sse.go lines 42-54), a submission routed to a session, and the
deferred removal when the serving loop exits (sse.go lines 57-62). -/
inductive SSEEvent where
  | openSession (sid : String)
  | submit (sid : String) (msg : Message)
  | closeSession (sid : String)

/-- One session-table transition per event. -/
def sseStep (exec : String → Option JVal → Except String JVal)
    (sessions : SSESessions) : SSEEvent → SSESessions
  | .openSession sid => (sid, []) :: sessions
  | .submit sid msg => (submitToSession exec sessions sid msg).1
  | .closeSession sid => sessions.filter (fun p => p.1 != sid)

/-- Session table reached by a sequence of events from the empty table. -/
def sseRun (exec : String → Option JVal → Except String JVal)
    (events : List SSEEvent) : SSESessions :=
  events.foldl (sseStep exec) []

/-! Helper lemmas about the pending table. -/

theorem lookupPending_delete_self (m : PendingMap) (id : Int) :
    lookupPending (deletePending m id) id = none := by
  induction m with
  | nil => rfl
  | cons p rest ih =>
      simp only [deletePending, List.filter_cons] at *
      by_cases h : p.1 = id
      · simp [h, ih]
      · simp [h, lookupPending, ih]

theorem lookupPending_delete_ne (m : PendingMap) (id j : Int) (h : j ≠ id) :
    lookupPending (deletePending m id) j = lookupPending m j := by
  induction m with
  | nil => rfl
  | cons p rest ih =>
      simp only [deletePending, List.filter_cons] at *
      by_cases hp : p.1 = id
      · simp [hp, lookupPending, Ne.symm h, ih]
      · by_cases hj : p.1 = j
        · simp [hp, hj, h, lookupPending]
        · simp [hp, hj, lookupPending, ih]

theorem lookupPending_eq_none (m : PendingMap) (id : Int) (h : ∀ p ∈ m, p.1 ≠ id) :
    lookupPending m id = none := by
  induction m with
  | nil => rfl
  | cons p rest ih =>
      simp only [lookupPending]
      rw [if_neg (h p (by simp))]
      exact ih fun q hq => h q (by simp [hq])

theorem mem_deletePending (m : PendingMap) (id : Int) (p : Int × Chan)
    (h : p ∈ deletePending m id) : p ∈ m ∧ p.1 ≠ id := by
  simp only [deletePending, List.mem_filter, bne_iff_ne] at h
  exact h

theorem pendingInv_initial : PendingInv initialState :=
  ⟨le_refl 0, List.nodup_nil, fun p hp => absurd hp (List.not_mem_nil p)⟩

theorem pendingInv_step (st : ServerState) (e : ServerEvent) (h : PendingInv st) :
    PendingInv (serverStep st e) := by
  obtain ⟨h0, hnd, hb⟩ := h
  cases e with
  | connect t => exact ⟨h0, hnd, hb⟩
  | readLoopExit t => exact ⟨h0, hnd, hb⟩
  | inbound m => exact ⟨h0, hnd, hb⟩
  | completeRequest id =>
      refine ⟨h0, ?_, ?_⟩
      · exact List.Nodup.sublist (List.Sublist.map Prod.fst (List.filter_sublist _)) hnd
      · exact fun p hp => hb p (mem_deletePending st.pendingReqs id p hp).1
  | sendRequest method params ch =>
      cases hc : st.conn with
      | none => simpa [serverStep, sendRequestStart, hc] using ⟨h0, hnd, hb⟩
      | some c =>
          have hstep : serverStep st (.sendRequest method params ch) =
              { st with reqID := st.reqID + 1000, pendingReqs := (st.reqID + 1000, ch) :: st.pendingReqs } := by
            simp [serverStep, sendRequestStart, hc]
          rw [hstep]
          refine ⟨?_, ?_, ?_⟩
          · show (0 : Int) ≤ st.reqID + 1000
            omega
          · show (((st.reqID + 1000, ch) :: st.pendingReqs).map Prod.fst).Nodup
            refine List.nodup_cons.mpr ⟨?_, hnd⟩
            intro hmem
            obtain ⟨p, hp, hp1⟩ := List.mem_map.mp hmem
            have h2 := (hb p hp).2
            omega
          · intro p hp
            have hpmem : p ∈ (st.reqID + 1000, ch) :: st.pendingReqs := hp
            show 0 < p.1 ∧ p.1 ≤ st.reqID + 1000
            rcases List.mem_cons.mp hpmem with hp1 | hp1
            · rw [hp1]
              exact ⟨by omega, by omega⟩
            · obtain ⟨ha, hb2⟩ := hb p hp1
              exact ⟨ha, by omega⟩

theorem pendingInv_run (events : List ServerEvent) : PendingInv (serverRun events) := by
  suffices h : ∀ st, PendingInv st → PendingInv (events.foldl serverStep st) from
    h initialState pendingInv_initial
  induction events with
  | nil => exact fun st h => h
  | cons e rest ih => exact fun st h => ih _ (pendingInv_step st e h)

/-- C1: evaluation of the connection registry at the failing trace. Transport
1 connects, transport 2 replaces it (last connection wins), and then the
displaced read loop of transport 1 exits: its deferred cleanup clears the
registry unconditionally, so a send issued after the replacement and after
the old connection closed fails with the "not connected" error instead of
going to transport 2. The third conjunct shows the divergence point: before
the old read loop exits, sends do go to the new transport. -/
theorem c1_failing_trace :
    connRun [ConnEvent.connect 1, ConnEvent.connect 2, ConnEvent.readLoopExit 1] = none ∧
    sendMessage (connRun [ConnEvent.connect 1, ConnEvent.connect 2, ConnEvent.readLoopExit 1])
      { id := 0, method := "ping" } = Except.error "not connected" ∧
    sendMessage (connRun [ConnEvent.connect 1, ConnEvent.connect 2])
      { id := 0, method := "ping" } = Except.ok (2, { id := 0, method := "ping" }) :=
  ⟨rfl, rfl, rfl⟩

/-- C2: a bridge-initiated call that never receives a reply times out after
the fixed 30 second window; its Pending Request entry is removed afterwards,
so no entry with its ID remains in the table; and a late envelope carrying
that ID is handed to the dispatcher as a fresh inbound request, never
resolving any call and never crashing the read loop. -/
theorem c2_timeout_removes_pending (st : ServerState) (method : String)
    (params : Option JVal) (ch : Chan) (c : Conn) (h : st.conn = some c) :
    requestTimeoutSeconds = 30 ∧
    ∃ st1, sendRequestStart st method params ch =
        (st1, .registered (st.reqID + 1000) ch
          { id := st.reqID + 1000, method := method, params := params }) ∧
      lookupPending st1.pendingReqs (st.reqID + 1000) = some ch ∧
      (sendRequestTimeout st1 (st.reqID + 1000)).2 = "request timeout" ∧
      lookupPending (sendRequestTimeout st1 (st.reqID + 1000)).1.pendingReqs
        (st.reqID + 1000) = none ∧
      (∀ p ∈ (sendRequestTimeout st1 (st.reqID + 1000)).1.pendingReqs,
        p.1 ≠ st.reqID + 1000) ∧
      ∀ late : Message, late.id = st.reqID + 1000 →
        handleInboundMessage (sendRequestTimeout st1 (st.reqID + 1000)).1 late =
          .dispatched late := by
  refine ⟨rfl, { st with reqID := st.reqID + 1000, pendingReqs := (st.reqID + 1000, ch) :: st.pendingReqs }, ?_, ?_, rfl, ?_, ?_, ?_⟩
  · simp [sendRequestStart, h]
  · simp [lookupPending]
  · exact lookupPending_delete_self _ _
  · intro p hp
    exact (mem_deletePending _ _ p hp).2
  · intro late hl
    have hnone : lookupPending
        (sendRequestTimeout { st with reqID := st.reqID + 1000, pendingReqs := (st.reqID + 1000, ch) :: st.pendingReqs } (st.reqID + 1000)).1.pendingReqs
        late.id = none := by
      rw [hl]
      exact lookupPending_delete_self _ _
    unfold handleInboundMessage
    rw [hnone]
    split <;> rfl

/-- C2 witness: the timeout path evaluated on the concrete server with
transport 1 registered and an empty pending table; the call registers ID
1000, the timeout removes it, and a late reply with ID 1000 is dispatched. -/
theorem c2_witness :
    ({ conn := some 1, pendingReqs := [], reqID := 0 } : ServerState).conn = some 1 ∧
    (requestTimeoutSeconds = 30 ∧
      ∃ st1, sendRequestStart { conn := some 1, pendingReqs := [], reqID := 0 } "tabs/list" none 9 =
          (st1, .registered (({ conn := some 1, pendingReqs := [], reqID := 0 } : ServerState).reqID + 1000) 9
            { id := ({ conn := some 1, pendingReqs := [], reqID := 0 } : ServerState).reqID + 1000, method := "tabs/list", params := none }) ∧
        lookupPending st1.pendingReqs (({ conn := some 1, pendingReqs := [], reqID := 0 } : ServerState).reqID + 1000) = some 9 ∧
        (sendRequestTimeout st1 (({ conn := some 1, pendingReqs := [], reqID := 0 } : ServerState).reqID + 1000)).2 = "request timeout" ∧
        lookupPending (sendRequestTimeout st1 (({ conn := some 1, pendingReqs := [], reqID := 0 } : ServerState).reqID + 1000)).1.pendingReqs
          (({ conn := some 1, pendingReqs := [], reqID := 0 } : ServerState).reqID + 1000) = none ∧
        (∀ p ∈ (sendRequestTimeout st1 (({ conn := some 1, pendingReqs := [], reqID := 0 } : ServerState).reqID + 1000)).1.pendingReqs,
          p.1 ≠ ({ conn := some 1, pendingReqs := [], reqID := 0 } : ServerState).reqID + 1000) ∧
        ∀ late : Message, late.id = ({ conn := some 1, pendingReqs := [], reqID := 0 } : ServerState).reqID + 1000 →
          handleInboundMessage (sendRequestTimeout st1 (({ conn := some 1, pendingReqs := [], reqID := 0 } : ServerState).reqID + 1000)).1 late =
            .dispatched late) :=
  ⟨rfl, c2_timeout_removes_pending { conn := some 1, pendingReqs := [], reqID := 0 } "tabs/list" none 9 1 rfl⟩

/-- C3: a bridge-initiated call issued while no transport is registered fails
with the "not connected" error without blocking, and the whole server state,
the pending table included, is returned exactly unchanged: no Pending Request
entry is created. -/
theorem c3_send_request_not_connected (st : ServerState) (method : String)
    (params : Option JVal) (ch : Chan) (h : st.conn = none) :
    sendRequestStart st method params ch = (st, .failed "not connected") := by
  simp [sendRequestStart, h]

/-- C3 witness: the not-connected path evaluated on a concrete disconnected
server with a nonempty pending table, which the failed call leaves intact. -/
theorem c3_witness :
    ({ conn := none, pendingReqs := [(1000, 4)], reqID := 1000 } : ServerState).conn = none ∧
    sendRequestStart { conn := none, pendingReqs := [(1000, 4)], reqID := 1000 } "tabs/list" none 7 =
      ({ conn := none, pendingReqs := [(1000, 4)], reqID := 1000 }, .failed "not connected") :=
  ⟨rfl, c3_send_request_not_connected { conn := none, pendingReqs := [(1000, 4)], reqID := 1000 } "tabs/list" none 7 rfl⟩

/-- C4: reply resolution is keyed by envelope ID alone. A response-shaped
envelope whose ID is pending is delivered exactly to that entry's channel;
completing the resolved call leaves the entry of every other ID exactly as it
was; an envelope whose ID matches no Pending Request is dispatched as a fresh
inbound request; and two outstanding calls each receive exactly their own
matching reply even when the two replies arrive in the opposite order. -/
theorem c4_resolution_id_isolation :
    (∀ st msg ch, msg.id ≠ 0 → (msg.result.isSome ∨ msg.error.isSome) →
      lookupPending st.pendingReqs msg.id = some ch →
      handleInboundMessage st msg = .resolved ch msg) ∧
    (∀ st msg j, j ≠ msg.id →
      lookupPending (resolveCycle st msg).1.pendingReqs j =
        lookupPending st.pendingReqs j) ∧
    (∀ st msg, lookupPending st.pendingReqs msg.id = none →
      handleInboundMessage st msg = .dispatched msg) ∧
    (∀ (conn : Option Conn) (reqID a b : Int) (cha chb : Chan) (ra rb : Message),
      a ≠ b → ra.id = a → rb.id = b → a ≠ 0 → b ≠ 0 →
      ra.result.isSome → rb.result.isSome →
      handleInboundMessage ⟨conn, [(a, cha), (b, chb)], reqID⟩ rb = .resolved chb rb ∧
      handleInboundMessage (resolveCycle ⟨conn, [(a, cha), (b, chb)], reqID⟩ rb).1 ra =
        .resolved cha ra) := by
  refine ⟨?_, ?_, ?_, ?_⟩
  · intro st msg ch h0 hshape hfound
    simp [handleInboundMessage, h0, hshape, hfound]
  · intro st msg j hj
    unfold resolveCycle
    cases handleInboundMessage st msg with
    | resolved ch m => exact lookupPending_delete_ne _ _ _ hj
    | dispatched m => rfl
  · intro st msg hnone
    unfold handleInboundMessage
    rw [hnone]
    split <;> rfl
  · intro conn reqID a b cha chb ra rb hab hra hrb ha0 hb0 hras hrbs
    have hlb : lookupPending [(a, cha), (b, chb)] b = some chb := by
      simp [lookupPending, hab]
    have h1 : handleInboundMessage ⟨conn, [(a, cha), (b, chb)], reqID⟩ rb = .resolved chb rb := by
      simp [handleInboundMessage, hrb, hb0, hrbs, hlb]
    refine ⟨h1, ?_⟩
    have hcycle : (resolveCycle ⟨conn, [(a, cha), (b, chb)], reqID⟩ rb).1.pendingReqs =
        deletePending [(a, cha), (b, chb)] rb.id := by
      unfold resolveCycle
      rw [h1]
    have hla : lookupPending (resolveCycle ⟨conn, [(a, cha), (b, chb)], reqID⟩ rb).1.pendingReqs a = some cha := by
      rw [hcycle, hrb]
      simp [deletePending, lookupPending, hab, Ne.symm hab]
    simp [handleInboundMessage, hra, ha0, hras, hla]

/-- C4 witness: two concrete pending calls with IDs 1000 and 2000; the reply
for 2000 arrives first and resolves only channel 8, then the reply for 1000
resolves channel 7. -/
theorem c4_witness :
    ((1000 : Int) ≠ 2000) ∧
    (handleInboundMessage ⟨some 1, [(1000, 7), (2000, 8)], 2000⟩
        { id := 2000, result := some JVal.null } =
      .resolved 8 { id := 2000, result := some JVal.null } ∧
    handleInboundMessage
        (resolveCycle ⟨some 1, [(1000, 7), (2000, 8)], 2000⟩
          { id := 2000, result := some JVal.null }).1
        { id := 1000, result := some JVal.null } =
      .resolved 7 { id := 1000, result := some JVal.null }) :=
  ⟨by decide,
    c4_resolution_id_isolation.2.2.2 (some 1) 2000 1000 2000 7 8
      { id := 1000, result := some JVal.null } { id := 2000, result := some JVal.null }
      (by decide) rfl rfl (by decide) (by decide) rfl rfl⟩

/-- C5: at most one Pending Request exists per ID in every reachable server
state (the pending keys are pairwise distinct); the request counter never
decreases, and a bridge-initiated call with a live transport advances it by
exactly the 1000 stride; the freshly allocated ID is nonzero and absent from
the pending table of every reachable state; and an envelope with ID 0 is
never looked up in the pending table, being dispatched as a fresh request. -/
theorem c5_pending_unique_ids :
    (∀ events, ((serverRun events).pendingReqs.map Prod.fst).Nodup) ∧
    (∀ st e, st.reqID ≤ (serverStep st e).reqID) ∧
    (∀ st method params ch c, st.conn = some c →
      (sendRequestStart st method params ch).1.reqID = st.reqID + 1000) ∧
    (∀ events, (serverRun events).reqID + 1000 ≠ 0 ∧
      lookupPending (serverRun events).pendingReqs
        ((serverRun events).reqID + 1000) = none) ∧
    (∀ st msg, msg.id = 0 → handleInboundMessage st msg = .dispatched msg) := by
  refine ⟨?_, ?_, ?_, ?_, ?_⟩
  · exact fun events => (pendingInv_run events).2.1
  · intro st e
    cases e with
    | connect t => exact le_refl _
    | readLoopExit t => exact le_refl _
    | inbound m => exact le_refl _
    | completeRequest id => exact le_refl _
    | sendRequest method params ch =>
        cases hc : st.conn with
        | none => simp [serverStep, sendRequestStart, hc]
        | some c =>
            have : (serverStep st (.sendRequest method params ch)).reqID = st.reqID + 1000 := by
              simp [serverStep, sendRequestStart, hc]
            omega
  · intro st method params ch c hc
    simp [sendRequestStart, hc]
  · intro events
    obtain ⟨h0, _, hb⟩ := pendingInv_run events
    refine ⟨by omega, ?_⟩
    refine lookupPending_eq_none _ _ fun p hp => ?_
    have := (hb p hp).2
    omega
  · intro st msg h0
    simp [handleInboundMessage, h0]

/-- C5 witness: the uniqueness and freshness facts evaluated on a concrete
event trace with a connect, two allocations and one completion, and the
ID-0 guard evaluated on a concrete response-shaped envelope. -/
theorem c5_witness :
    (((serverRun [ServerEvent.connect 1, ServerEvent.sendRequest "a" none 7,
        ServerEvent.sendRequest "b" none 8,
        ServerEvent.completeRequest 1000]).pendingReqs.map Prod.fst).Nodup) ∧
    (({ conn := some 1, pendingReqs := [], reqID := 0 } : ServerState).conn = some 1 ∧
      (sendRequestStart { conn := some 1, pendingReqs := [], reqID := 0 } "a" none 7).1.reqID =
        ({ conn := some 1, pendingReqs := [], reqID := 0 } : ServerState).reqID + 1000) ∧
    (({ id := 0, result := some JVal.null } : Message).id = 0 ∧
      handleInboundMessage { conn := some 1, pendingReqs := [(1000, 7)], reqID := 1000 }
        { id := 0, result := some JVal.null } =
        .dispatched { id := 0, result := some JVal.null }) :=
  ⟨c5_pending_unique_ids.1 [ServerEvent.connect 1, ServerEvent.sendRequest "a" none 7,
      ServerEvent.sendRequest "b" none 8, ServerEvent.completeRequest 1000],
    ⟨rfl, c5_pending_unique_ids.2.2.1 { conn := some 1, pendingReqs := [], reqID := 0 } "a" none 7 1 rfl⟩,
    ⟨rfl, c5_pending_unique_ids.2.2.2.2 { conn := some 1, pendingReqs := [(1000, 7)], reqID := 1000 }
      { id := 0, result := some JVal.null } rfl⟩⟩


/-! Helper lemmas about the SSE session table. -/

theorem lookupSession_update_ne (sessions : SSESessions) (sid j : String) (q : List JVal)
    (h : j ≠ sid) :
    lookupSession (updateSession sessions sid q) j = lookupSession sessions j := by
  induction sessions with
  | nil => rfl
  | cons p rest ih =>
      obtain ⟨k, v⟩ := p
      dsimp only [updateSession, List.map_cons] at *
      by_cases hp : k = sid
      · have hpj : ¬ k = j := fun hh => h (hh ▸ hp)
        rw [if_pos hp]
        simp only [lookupSession]
        rw [if_neg hpj, if_neg hpj]
        exact ih
      · rw [if_neg hp]
        by_cases hjj : k = j
        · simp only [lookupSession]
          rw [if_pos hjj, if_pos hjj]
        · simp only [lookupSession]
          rw [if_neg hjj, if_neg hjj]
          exact ih

theorem lookupSession_update_self (sessions : SSESessions) (sid : String) (q : List JVal)
    (h : lookupSession sessions sid = some q) (j : String) :
    lookupSession (updateSession sessions sid q) j = lookupSession sessions j := by
  by_cases hj : j = sid
  · subst hj
    induction sessions with
    | nil => rfl
    | cons p rest ih =>
        obtain ⟨k, v⟩ := p
        dsimp only [updateSession, List.map_cons] at *
        by_cases hp : k = j
        · rw [if_pos hp]
          simp only [lookupSession] at h ⊢
          rw [if_pos hp] at h
          injection h with h2
          rw [if_pos hp, if_pos hp, h2]
        · rw [if_neg hp]
          simp only [lookupSession] at h ⊢
          rw [if_neg hp] at h
          rw [if_neg hp, if_neg hp]
          exact ih h
  · exact lookupSession_update_ne sessions sid j q hj

theorem lookupSession_mem (sessions : SSESessions) (sid : String) (q : List JVal)
    (h : lookupSession sessions sid = some q) : (sid, q) ∈ sessions := by
  induction sessions with
  | nil => cases h
  | cons p rest ih =>
      obtain ⟨k, v⟩ := p
      simp only [lookupSession] at h
      by_cases hp : k = sid
      · rw [if_pos hp] at h
        injection h with h2
        exact List.mem_cons.mpr (Or.inl (by rw [hp, h2]))
      · rw [if_neg hp] at h
        exact List.mem_cons_of_mem _ (ih h)

theorem handleSSEMessageInternal_length (exec : String → Option JVal → Except String JVal)
    (q : List JVal) (msg : Message) (h : q.length ≤ sseQueueCapacity) :
    ((handleSSEMessageInternal exec q msg).1).length ≤ sseQueueCapacity := by
  by_cases hm : msg.method = ""
  · simpa [handleSSEMessageInternal, hm] using h
  · rcases hexec : exec msg.method msg.params with e | r <;>
      by_cases hlt : q.length < sseQueueCapacity <;>
      · simp [handleSSEMessageInternal, hm, hexec, pushEvent, hlt]
        omega

/-- Invariant of the session table: every session queue holds at most the
fixed capacity. -/
def SSEInv (sessions : SSESessions) : Prop :=
  ∀ p ∈ sessions, p.2.length ≤ sseQueueCapacity

theorem sseInv_step (exec : String → Option JVal → Except String JVal)
    (sessions : SSESessions) (e : SSEEvent) (h : SSEInv sessions) :
    SSEInv (sseStep exec sessions e) := by
  cases e with
  | openSession sid =>
      intro p hp
      rcases List.mem_cons.mp hp with hp | hp
      · rw [hp]
        simp [sseQueueCapacity]
      · exact h p hp
  | closeSession sid =>
      intro p hp
      exact h p (List.mem_of_mem_filter hp)
  | submit sid msg =>
      intro p hp
      simp only [sseStep, submitToSession] at hp
      cases hq : lookupSession sessions sid with
      | none =>
          rw [hq] at hp
          exact h p hp
      | some q =>
          rw [hq] at hp
          simp only [updateSession, List.map_cons] at hp
          obtain ⟨orig, horig, hmap⟩ := List.mem_map.mp hp
          have hqlen : q.length ≤ sseQueueCapacity :=
            h (sid, q) (lookupSession_mem sessions sid q hq)
          by_cases ho : orig.1 = sid
          · rw [if_pos ho] at hmap
            rw [← hmap]
            exact handleSSEMessageInternal_length exec q msg hqlen
          · rw [if_neg ho] at hmap
            rw [← hmap]
            exact h orig horig

theorem sseInv_run (exec : String → Option JVal → Except String JVal)
    (events : List SSEEvent) : SSEInv (sseRun exec events) := by
  suffices h : ∀ s, SSEInv s → SSEInv (events.foldl (sseStep exec) s) from
    h [] fun p hp => absurd hp (List.not_mem_nil p)
  induction events with
  | nil => exact fun s h => h
  | cons e rest ih => exact fun s h => ih _ (sseInv_step exec s e h)


/-- C6: the bounded lossy queue of the streaming sessions. The capacity is the
fixed 100 and the grace period the fixed 5 seconds; a push preserves the
capacity bound; a push into a full queue leaves the queue unchanged and is
dropped rather than blocking; every session queue of every reachable session
table holds at most the capacity; and a submission to one session leaves the
queue of every other session untouched. -/
theorem c6_sse_queue_bounded :
    sseQueueCapacity = 100 ∧ sseGraceSeconds = 5 ∧
    (∀ q e, q.length ≤ sseQueueCapacity → ((pushEvent q e).1).length ≤ sseQueueCapacity) ∧
    (∀ q e, ¬ q.length < sseQueueCapacity → pushEvent q e = (q, .dropped)) ∧
    (∀ exec events, ∀ p ∈ sseRun exec events, p.2.length ≤ sseQueueCapacity) ∧
    (∀ exec sessions sid msg j, j ≠ sid →
      lookupSession (submitToSession exec sessions sid msg).1 j =
        lookupSession sessions j) := by
  refine ⟨rfl, rfl, ?_, ?_, ?_, ?_⟩
  · intro q e h
    by_cases hlt : q.length < sseQueueCapacity
    · simp only [pushEvent, if_pos hlt, List.length_append, List.length_singleton]
      omega
    · simpa only [pushEvent, if_neg hlt] using h
  · intro q e h
    simp [pushEvent, h]
  · intro exec events p hp
    exact sseInv_run exec events p hp
  · intro exec sessions sid msg j hj
    simp only [submitToSession]
    cases hq : lookupSession sessions sid with
    | none => rfl
    | some q => exact lookupSession_update_ne sessions sid j _ hj

/-- C6 witness: a full queue of one hundred events drops the next push and is
returned unchanged, and a submission addressed to session-2 leaves the queue
of session-1 exactly as it was. -/
theorem c6_witness :
    (¬ (List.replicate 100 JVal.null).length < sseQueueCapacity) ∧
    pushEvent (List.replicate 100 JVal.null) JVal.null =
      (List.replicate 100 JVal.null, .dropped) ∧
    (("session-1" : String) ≠ "session-2") ∧
    lookupSession (submitToSession (fun _ _ => Except.ok JVal.null)
        [("session-1", []), ("session-2", [])] "session-2"
        { id := 1, method := "ping" }).1 "session-1" =
      lookupSession [("session-1", []), ("session-2", [])] "session-1" := by
  refine ⟨by simp [sseQueueCapacity], ?_, by decide, ?_⟩
  · exact c6_sse_queue_bounded.2.2.2.1 (List.replicate 100 JVal.null) JVal.null
      (by simp [sseQueueCapacity])
  · exact c6_sse_queue_bounded.2.2.2.2.2 (fun _ _ => Except.ok JVal.null)
      [("session-1", []), ("session-2", [])] "session-2" { id := 1, method := "ping" }
      "session-1" (by decide)

/-- Handler environment whose parameter decodes fail, used to exhibit a decode
error beside the unknown-method error. -/
def envDecodeFail : HandlerEnv where
  listTabs := .error "not connected"
  activateTab := fun _ => .error "json: cannot unmarshal params"
  navigateTab := fun _ => .error "json: cannot unmarshal params"
  closeTab := fun _ => .error "json: cannot unmarshal params"
  screenshotTab := fun _ => .error "json: cannot unmarshal params"
  getPageContent := fun _ => .error "json: cannot unmarshal params"
  executeScript := fun _ => .error "json: cannot unmarshal params"
  clickElement := fun _ => .error "json: cannot unmarshal params"
  fillInput := fun _ => .error "json: cannot unmarshal params"
  scrollPage := fun _ => .error "json: cannot unmarshal params"
  findElements := fun _ => .error "json: cannot unmarshal params"
  decodeExtensionError := fun _ => .error "json: cannot unmarshal params"

/-- C7 counterexample: at the concrete unknown method the dispatcher answers
an error envelope with code -32603, the very same code it answers for a
parameter decode failure of tabs/activate, so the unknown-method code is not
distinct from the fixed internal-failure code. -/
theorem c7_counterexample :
    (handleRequest envDecodeFail { id := 1, method := "definitely/not/a/method" }).error.map
      MCPError.code = some internalErrorCode ∧
    (handleRequest envDecodeFail
      { id := 2, method := "tabs/activate", params := some (JVal.str "bogus") }).error.map
      MCPError.code = some internalErrorCode ∧
    (handleRequest envDecodeFail { id := 1, method := "definitely/not/a/method" }).error.map
      MCPError.code =
    (handleRequest envDecodeFail
      { id := 2, method := "tabs/activate", params := some (JVal.str "bogus") }).error.map
      MCPError.code :=
  ⟨rfl, rfl, rfl⟩

/-- C7 amended: an inbound request whose method is outside the dispatch table
always yields an error envelope, never a success envelope and never a crash,
whose message names the unknown method; its code is the same fixed -32603
code used for every dispatcher failure, decode errors included, rather than a
distinct method-not-found code. -/
theorem c7_unknown_method (env : HandlerEnv) (msg : Message)
    (h : msg.method ∉ knownMethods) :
    handleRequest env msg =
      ErrorResponse msg.id internalErrorCode ("unknown method: " ++ msg.method) := by
  simp only [knownMethods, List.mem_cons, List.not_mem_nil, or_false, not_or] at h
  obtain ⟨h1, h2, h3, h4, h5, h6, h7, h8, h9, h10, h11, h12, h13, h14⟩ := h
  simp [handleRequest, dispatchMethod, h1, h2, h3, h4, h5, h6, h7, h8, h9, h10,
    h11, h12, h13, h14]

/-- C7 witness: the amended statement evaluated at the concrete unknown
method frobnicate. -/
theorem c7_witness :
    ("frobnicate" ∉ knownMethods) ∧
    handleRequest envDecodeFail { id := 5, method := "frobnicate" } =
      ErrorResponse 5 internalErrorCode ("unknown method: " ++ "frobnicate") :=
  ⟨by decide, c7_unknown_method envDecodeFail { id := 5, method := "frobnicate" } (by decide)⟩

/-- Liveness response as the specification words it in its section 6: an
object with a status field "ok" and a boolean connectivity field named
peer_connected. -/
def specHealthResponse (connected : Bool) : JVal :=
  .obj [("status", .str "ok"), ("peer_connected", .bool connected)]

/-- C8 counterexample: with transport 1 registered, the health body carries no
field named peer_connected; the connectivity boolean sits under the field
named extension_connected, unlike the spec-worded object. -/
theorem c8_counterexample :
    lookupField (handleHealth (some 1)) "peer_connected" = none ∧
    lookupField (specHealthResponse true) "peer_connected" = some (JVal.bool true) ∧
    lookupField (handleHealth (some 1)) "extension_connected" = some (JVal.bool true) :=
  ⟨rfl, rfl, rfl⟩

/-- C8 amended: for every registry state the liveness body is an object whose
status field is always the string "ok" and whose peer-connectivity boolean is
the field named extension_connected, true exactly when a transport is
currently registered; no field named peer_connected exists in the body. -/
theorem c8_health_fields (events : List ConnEvent) :
    lookupField (handleHealth (connRun events)) "status" = some (JVal.str "ok") ∧
    (lookupField (handleHealth (connRun events)) "extension_connected" =
        some (JVal.bool true) ↔ connRun events ≠ none) ∧
    lookupField (handleHealth (connRun events)) "peer_connected" = none := by
  cases h : connRun events with
  | none =>
      refine ⟨rfl, ?_, rfl⟩
      show (some (JVal.bool false) = some (JVal.bool true)) ↔ (none : Option Conn) ≠ none
      simp
  | some c =>
      refine ⟨rfl, ?_, rfl⟩
      show (some (JVal.bool true) = some (JVal.bool true)) ↔ (some c : Option Conn) ≠ none
      simp

/-- C9: tools/list is answered from the static descriptor list with no peer
round-trip: for every tools/call executor environment and every params the
result is the one fixed value built from GetTools; the descriptor list is
nonempty; and its name fields are pairwise distinct. -/
theorem c9_tools_list_stable :
    (∀ env params, handleMCPRootMethod env "tools/list" params =
      .ok (.obj [("tools", .arr (GetTools.map Tool.toJVal))])) ∧
    GetTools ≠ [] ∧
    (GetTools.map Tool.name).Nodup := by
  refine ⟨fun env params => rfl, by decide, by decide⟩

/-- C10: a well-formed envelope submitted to an existing streaming session
with an empty method field is acknowledged with the accepted status, yet
silently discarded: the asynchronous handler returns at once with the same
outcome for every executor, so no method is executed, and every session
queue, the addressed one included, is left exactly as it was. -/
theorem c10_empty_method_discarded (sessions : SSESessions) (sid : String)
    (q : List JVal) (msg : Message) (exec : String → Option JVal → Except String JVal)
    (hsid : sid ≠ "") (hq : lookupSession sessions sid = some q) (hm : msg.method = "") :
    handleSSEMessage sessions sid (some msg) = .accepted ∧
    handleSSEMessageInternal exec q msg = (q, .ignoredResponse) ∧
    (∀ exec2, handleSSEMessageInternal exec2 q msg = handleSSEMessageInternal exec q msg) ∧
    (∀ j, lookupSession (submitToSession exec sessions sid msg).1 j =
      lookupSession sessions j) := by
  have hint : ∀ e2 : String → Option JVal → Except String JVal,
      handleSSEMessageInternal e2 q msg = (q, .ignoredResponse) := fun e2 => by
    simp [handleSSEMessageInternal, hm]
  refine ⟨?_, hint exec, fun e2 => (hint e2).trans (hint exec).symm, ?_⟩
  · simp [handleSSEMessage, hsid, hq]
  · intro j
    simp only [submitToSession, hq, hint exec]
    exact lookupSession_update_self sessions sid q hq j

/-- C10 witness: the empty-method discard evaluated on the concrete session
table holding session-1 with one queued event. -/
theorem c10_witness :
    (("session-1" : String) ≠ "") ∧
    lookupSession [("session-1", [JVal.null])] "session-1" = some [JVal.null] ∧
    (({ id := 3 } : Message).method = "") ∧
    (handleSSEMessage [("session-1", [JVal.null])] "session-1" (some { id := 3 }) = .accepted ∧
      handleSSEMessageInternal (fun _ _ => Except.ok JVal.null) [JVal.null] { id := 3 } =
        ([JVal.null], .ignoredResponse) ∧
      (∀ exec2, handleSSEMessageInternal exec2 [JVal.null] { id := 3 } =
        handleSSEMessageInternal (fun _ _ => Except.ok JVal.null) [JVal.null] { id := 3 }) ∧
      (∀ j, lookupSession (submitToSession (fun _ _ => Except.ok JVal.null)
          [("session-1", [JVal.null])] "session-1" { id := 3 }).1 j =
        lookupSession [("session-1", [JVal.null])] j)) :=
  ⟨by decide, rfl, rfl,
    c10_empty_method_discarded [("session-1", [JVal.null])] "session-1" [JVal.null]
      { id := 3 } (fun _ _ => Except.ok JVal.null) (by decide) rfl rfl⟩

end Bridge
